import Mathlib

/-!
Shallow embedding of the 17peppertree booking backend
(`backend/app.py`, `backend/rate_routes.py`, `backend/secure_auth.py`,
`backend/admin_routes.py`), together with theorems settling the claims
about its availability computation, rate engine, token verification and
status-update endpoints.

Dates are modelled as in CPython's `datetime.date`: a proleptic-Gregorian
ordinal (`toOrdinal`), so `timedelta(days=1)` is `+ 1` and date comparison
is integer comparison.  Python `float` money amounts are modelled as `Rat`;
every arithmetic the code performs on them (comparison with 0, summation of
per-night amounts) is exact at the magnitudes involved.  Database queries
become filters over an explicit list-of-rows state.
-/

/-! ## Date model (CPython `datetime.date.toordinal`) -/

def isLeap (y : Int) : Bool :=
  y % 4 == 0 && (y % 100 != 0 || y % 400 == 0)

def daysBeforeYear (y : Int) : Int :=
  let p := y - 1
  p * 365 + p / 4 - p / 100 + p / 400

def daysBeforeMonth (y m : Int) : Int :=
  let base : Int :=
    match m with
    | 1 => 0 | 2 => 31 | 3 => 59 | 4 => 90 | 5 => 120 | 6 => 151
    | 7 => 181 | 8 => 212 | 9 => 243 | 10 => 273 | 11 => 304 | 12 => 334
    | _ => 0
  base + (if 2 < m && isLeap y then 1 else 0)

/-- Proleptic-Gregorian ordinal of the date `(y, m, d)`; the embedding of a
Python `datetime.date` value. -/
def toOrdinal (y m d : Int) : Int :=
  daysBeforeYear y + daysBeforeMonth y m + d

/-- `datesFrom lo hi` is the list of day ordinals in `[lo, hi)`, the
embedding of the `while current_date < end: ... current_date += 1 day`
iteration pattern used throughout the source. -/
def datesFrom (lo hi : Int) : List Int :=
  (List.range (hi - lo).toNat).map (fun i : Nat => lo + (i : Int))

/-! ## Bookings and the availability endpoint (`backend/app.py`) -/

structure Booking where
  id : Nat
  status : String
  checkin : Int
  checkout : Int
  statusHistory : List String := []
  deriving DecidableEq, Repr

/-- First day of the requested month: `datetime(year, month, 1).date()`. -/
def monthStart (y m : Int) : Int := toOrdinal y m 1

/-- Last day of the requested month, exactly as `get_availability` computes
it: December rolls to January 1 of the next year minus one day, any other
month to the first of the next month minus one day. -/
def monthEnd (y m : Int) : Int :=
  if m = 12 then toOrdinal (y + 1) 1 1 - 1 else toOrdinal y (m + 1) 1 - 1

/-- The SQL filter of `get_availability`: status is exactly `'confirmed'`
and the stay interval touches the month span. -/
def availBlocks (s e : Int) (b : Booking) : Bool :=
  b.status == "confirmed" && decide (b.checkin ≤ e) && decide (s ≤ b.checkout)

/-- The per-booking date emission loop of `get_availability`: every date in
`[max(checkin, month_start), min(checkout, month_end + 1 day))`. -/
def bookingDates (s e : Int) (b : Booking) : List Int :=
  datesFrom (max b.checkin s) (min b.checkout (e + 1))

/-- The `unavailable_dates` set computed by `get_availability` for a
validated `(year, month)` query, as a deduplicated list of day ordinals. -/
def unavailableDates (bookings : List Booking) (y m : Int) : List Int :=
  (((bookings.filter (availBlocks (monthStart y m) (monthEnd y m))).map
      (bookingDates (monthStart y m) (monthEnd y m))).flatten).dedup

/-- Result of the `/api/availability` endpoint. -/
inductive AvailResult where
  | errMissing
  | errMonthRange
  | ok (year month : Int) (dates : List Int)
  deriving DecidableEq, Repr

/-- Python truthiness of `request.args.get(..., type=int)`: absent (`None`)
and `0` are both falsy. -/
def intParamTruthy : Option Int → Bool
  | none => false
  | some n => n != 0

/-- The `/api/availability` handler: parameter checks in source order, then
the unavailable-dates computation. -/
def get_availability (bookings : List Booking) (year month : Option Int) : AvailResult :=
  if !intParamTruthy year || !intParamTruthy month then .errMissing
  else
    let y := year.getD 0
    let m := month.getD 0
    if m < 1 || 12 < m then .errMonthRange
    else .ok y m (unavailableDates bookings y m)

/-! ## Rates and the rate engine (`backend/rate_routes.py`) -/

structure Rate where
  id : Nat
  rate_type : String
  guests : Int
  amount : Rat
  start_date : Option Int := none
  end_date : Option Int := none
  description : Option String := none
  is_active : Bool := true
  deriving DecidableEq, Repr

/-- SQL `start_date <= v` under three-valued logic: false when NULL. -/
def startLE (r : Rate) (v : Int) : Bool :=
  match r.start_date with
  | none => false
  | some s => decide (s ≤ v)

/-- SQL `end_date >= v` under three-valued logic: false when NULL. -/
def endGE (r : Rate) (v : Int) : Bool :=
  match r.end_date with
  | none => false
  | some e => decide (v ≤ e)

/-- `special.start_date <= current_date <= special.end_date` in
`calculate_rate` (specials returned by the query always carry dates). -/
def containsDate (r : Rate) (d : Int) : Bool :=
  startLE r d && endGE r d

/-- Row predicate `rate_type='base' AND guests=G AND is_active=True`. -/
def isActiveBaseFor (guests : Int) (r : Rate) : Bool :=
  r.rate_type == "base" && r.guests == guests && r.is_active

/-- Row predicate `rate_type='special' AND guests=G AND is_active=True`. -/
def isActiveSpecialFor (guests : Int) (r : Rate) : Bool :=
  r.rate_type == "special" && r.guests == guests && r.is_active

/-- The active-base-rate lookup `Rate.query.filter_by(rate_type='base',
guests=guests, is_active=True).first()`. -/
def findBaseRate (rates : List Rate) (guests : Int) : Option Rate :=
  rates.find? (isActiveBaseFor guests)

/-- The special-rates query of `calculate_rate`: active specials for the
guest count whose range meets `[checkin, checkout]`. -/
def fetchSpecials (rates : List Rate) (guests ci co : Int) : List Rate :=
  rates.filter (fun r =>
    r.rate_type == "special" && r.guests == guests && r.is_active &&
      startLE r co && endGE r ci)

structure NightRate where
  date : Int
  rate : Rat
  rate_type : String
  description : Option String
  deriving DecidableEq, Repr

def baseDescription (guests : Int) : String :=
  "Base rate for " ++ toString guests ++ " guest(s)"

/-- One iteration of the nightly loop in `calculate_rate`: the first
fetched special containing the date wins, otherwise the base rate. -/
def nightFor (base : Rate) (guests : Int) (specials : List Rate) (d : Int) : NightRate :=
  match specials.find? (fun s => containsDate s d) with
  | some s => ⟨d, s.amount, "special", s.description⟩
  | none => ⟨d, base.amount, "base", some (baseDescription guests)⟩

/-- Result of `POST /api/admin/rates/calculate`. -/
inductive CalcResult where
  | errGuests
  | errDates
  | errNoBase
  | ok (nights : Int) (guests : Int) (base_rate : Rat) (nightly : List NightRate) (total : Rat)
  deriving DecidableEq, Repr

/-- The nightly loop of `calculate_rate`: one `NightRate` per date in
`[checkin, checkout)`. -/
def nightlyList (rates : List Rate) (guests ci co : Int) (base : Rate) : List NightRate :=
  (datesFrom ci co).map (nightFor base guests (fetchSpecials rates guests ci co))

/-- The `calculate_rate` handler on parsed inputs. -/
def calculate_rate (rates : List Rate) (ci co guests : Int) : CalcResult :=
  if guests < 1 || 2 < guests then .errGuests
  else if co ≤ ci then .errDates
  else
    match findBaseRate rates guests with
    | none => .errNoBase
    | some base =>
      .ok (co - ci) guests base.amount (nightlyList rates guests ci co base)
        (((nightlyList rates guests ci co base).map (·.rate)).sum)

/-! ## Rate administration: `create_rate` and `delete_rate` -/

/-- The JSON body of a rate create request; `none` models an absent key. -/
structure RateData where
  id : Option Nat := none
  rate_type : Option String := none
  guests : Option Int := none
  amount : Option Rat := none
  start_date : Option Int := none
  end_date : Option Int := none
  description : Option String := none
  is_active : Option Bool := none
  deriving DecidableEq, Repr

/-- The overlap query of `create_rate`: an active special row of the same
guest count, with a different id than `data.get('id', 0)`, satisfying
`existing.start <= new.end AND existing.end >= new.start`. -/
def overlapsNewSpecial (g : Int) (exclId : Nat) (s e : Int) (r : Rate) : Bool :=
  r.rate_type == "special" && r.guests == g && r.is_active &&
    !(r.id == exclId) && startLE r e && endGE r s

/-- Flip `is_active` off on the first row matching `p` (the ORM update of
the single row returned by `.first()`); all other rows untouched. -/
def deactivateFirst (p : Rate → Bool) : List Rate → List Rate
  | [] => []
  | r :: rs => if p r then { r with is_active := false } :: rs else r :: deactivateFirst p rs

/-- Fresh primary key for an inserted row. -/
def newRateId (rates : List Rate) : Nat :=
  (rates.map (·.id)).foldr max 0 + 1

/-- The row `create_rate` inserts. -/
def mkNewRate (data : RateData) (rt : String) (g : Int) (a : Rat) (nid : Nat) : Rate :=
  { id := nid, rate_type := rt, guests := g, amount := a,
    start_date := data.start_date, end_date := data.end_date,
    description := data.description, is_active := data.is_active.getD true }

inductive CreateResult where
  | errMissing
  | errType
  | errGuests
  | errAmount
  | errSpecialDates
  | errDateOrder
  | errOverlap
  | ok (newId : Nat)
  deriving DecidableEq, Repr

/-- `POST /api/admin/rates/` on parsed inputs: validation in source order,
then either the special-overlap check or the base-deactivation step, then
the insert.  Returns the HTTP outcome and the rates table afterwards. -/
def create_rate (rates : List Rate) (data : RateData) : CreateResult × List Rate :=
  match data.rate_type, data.guests, data.amount with
  | some rt, some g, some a =>
    if !(rt == "base" || rt == "special") then (.errType, rates)
    else if !(g == 1 || g == 2) then (.errGuests, rates)
    else if a ≤ 0 then (.errAmount, rates)
    else if rt == "special" then
      match data.start_date, data.end_date with
      | some s, some e =>
        if e < s then (.errDateOrder, rates)
        else if rates.any (overlapsNewSpecial g (data.id.getD 0) s e) then (.errOverlap, rates)
        else
          let nid := newRateId rates
          (.ok nid, rates ++ [mkNewRate data rt g a nid])
      | _, _ => (.errSpecialDates, rates)
    else
      let rates' := deactivateFirst (isActiveBaseFor g) rates
      let nid := newRateId rates
      (.ok nid, rates' ++ [mkNewRate data rt g a nid])
  | _, _, _ => (.errMissing, rates)

inductive DeleteResult where
  | errNotFound
  | errLastBase
  | ok
  deriving DecidableEq, Repr

/-- `DELETE /api/admin/rates/<id>`: refuse to soft-delete a base rate when
no other active base row exists for its guest count; otherwise set
`is_active = False` on the addressed row. -/
def delete_rate (rates : List Rate) (rid : Nat) : DeleteResult × List Rate :=
  match rates.find? (fun r => r.id == rid) with
  | none => (.errNotFound, rates)
  | some r =>
    if r.rate_type == "base" &&
        !(rates.any (fun o =>
          o.rate_type == "base" && o.guests == r.guests && o.is_active && !(o.id == rid))) then
      (.errLastBase, rates)
    else
      (.ok, deactivateFirst (fun o => o.id == rid) rates)

/-! ## Token verification (`backend/secure_auth.py`)

The cryptographic outcome of `jwt.decode` (signature over the fetched key,
`RS256`, audience `account`, expiry, and — on the client-credentials path —
the strict issuer) is modelled as an oracle value `DecodeOutcome`; the
claim-level checks the source performs after decoding are embedded
literally. -/

structure DecodedClaims where
  iss : String := ""
  typ : Option String := none
  preferred_username : Option String := none
  deriving DecidableEq, Repr

inductive DecodeOutcome where
  | ok (c : DecodedClaims)
  | failed
  deriving DecidableEq, Repr

/-- Python `s.startswith('service-account-')`, as a character-level prefix
test. -/
def isServiceAccountName (s : String) : Bool :=
  "service-account-".data.isPrefixOf s.data

/-- `decoded.get('preferred_username', '')`. -/
def usernameOf (c : DecodedClaims) : String :=
  c.preferred_username.getD ""

/-- `SecureAuth.verify_client_credentials_token`: kid lookup, key-cache
lookup, `jwt.decode` with strict issuer, then `typ == 'Bearer'` and the
service-account username-prefix requirement. -/
def verify_client_credentials_token (kid : Option String) (keys : Option (List String))
    (decode : DecodeOutcome) : Option DecodedClaims :=
  match kid with
  | none => none
  | some k =>
    match keys with
    | none => none
    | some ks =>
      if !(ks.contains k) then none
      else
        match decode with
        | .failed => none
        | .ok c =>
          if !(c.typ == some "Bearer") then none
          else if !(isServiceAccountName (usernameOf c)) then none
          else some c

/-- The issuer allow-list of `verify_user_token`. -/
def allowedIssuers (realm : String) : List String :=
  ["http://keycloak:8080/realms/" ++ realm,
   "http://localhost:8080/realms/" ++ realm,
   "http://192.168.1.222:8080/realms/" ++ realm,
   "http://127.0.0.1:8080/realms/" ++ realm]

/-- `SecureAuth.verify_user_token`: kid lookup, key-cache lookup,
`jwt.decode` without issuer verification, manual issuer allow-list check,
then rejection of service-account usernames. -/
def verify_user_token (kid : Option String) (keys : Option (List String))
    (decode : DecodeOutcome) (realm : String) : Option DecodedClaims :=
  match kid with
  | none => none
  | some k =>
    match keys with
    | none => none
    | some ks =>
      if !(ks.contains k) then none
      else
        match decode with
        | .failed => none
        | .ok c =>
          if !((allowedIssuers realm).contains c.iss) then none
          else if isServiceAccountName (usernameOf c) then none
          else some c

/-! ## Booking status updates (`backend/app.py` and `backend/admin_routes.py`) -/

/-- Statuses the public `PUT /api/booking/<id>/status` endpoint accepts. -/
def publicValidStatuses : List String :=
  ["pending", "confirmed", "rejected"]

/-- Statuses the admin `PUT /api/admin/booking/<id>/status` endpoint accepts. -/
def adminValidStatuses : List String :=
  ["pending", "approved", "rejected", "cancelled", "completed"]

inductive StatusUpdateResult where
  | errInvalidStatus
  | errNotFound
  | ok
  deriving DecidableEq, Repr

/-- Set the status on the row with the given id;
the admin endpoint also appends to the status history. -/
def setStatusFirst (bid : Nat) (st : String) (withHistory : Bool) :
    List Booking → List Booking
  | [] => []
  | b :: bs =>
    if b.id == bid then
      { b with status := st,
               statusHistory := if withHistory then b.statusHistory ++ [st]
                                else b.statusHistory } :: bs
    else b :: setStatusFirst bid st withHistory bs

/-- Public status update: validate the status value against its list first,
then look the booking up and write. -/
def update_booking_status_public (bookings : List Booking) (bid : Nat)
    (st : Option String) : StatusUpdateResult × List Booking :=
  match st with
  | none => (.errInvalidStatus, bookings)
  | some s =>
    if !(publicValidStatuses.contains s) then (.errInvalidStatus, bookings)
    else
      match bookings.find? (fun b => b.id == bid) with
      | none => (.errNotFound, bookings)
      | some _ => (.ok, setStatusFirst bid s false bookings)

/-- Admin status update: look the booking up first, then validate the
status value against the admin list, then write (history included). -/
def update_booking_status_admin (bookings : List Booking) (bid : Nat)
    (st : Option String) : StatusUpdateResult × List Booking :=
  match bookings.find? (fun b => b.id == bid) with
  | none => (.errNotFound, bookings)
  | some _ =>
    match st with
    | none => (.errInvalidStatus, bookings)
    | some s =>
      if !(adminValidStatuses.contains s) then (.errInvalidStatus, bookings)
      else (.ok, setStatusFirst bid s true bookings)

/-! ## Concrete fixtures for counterexamples and witnesses -/

def cexBase : Rate :=
  { id := 1, rate_type := "base", guests := 2, amount := 1000 }

def cexSpecA : Rate :=
  { id := 2, rate_type := "special", guests := 2, amount := 1500,
    start_date := some 100, end_date := some 105, description := some "festival A" }

def cexSpecB : Rate :=
  { id := 3, rate_type := "special", guests := 2, amount := 1800,
    start_date := some 100, end_date := some 103, description := some "festival B" }

def wNightly2 : List NightRate :=
  [⟨105, 1500, "special", some "festival A"⟩,
   ⟨106, 1000, "base", some (baseDescription 2)⟩]

def wNights3 : List NightRate :=
  [⟨0, 1000, "base", some (baseDescription 2)⟩,
   ⟨1, 1000, "base", some (baseDescription 2)⟩,
   ⟨2, 1000, "base", some (baseDescription 2)⟩]

def wBaseRates : List Rate :=
  [{ id := 1, rate_type := "base", guests := 2, amount := 900 }]

def wBaseData : RateData :=
  { rate_type := some "base", guests := some 2, amount := some 1000 }

def wSpRates : List Rate :=
  [{ id := 1, rate_type := "special", guests := 2, amount := 1500,
     start_date := some 100, end_date := some 105, description := some "high season" }]

/-- A new special adjacent to the existing one: range `[106, 110]`. -/
def wSpData : RateData :=
  { rate_type := some "special", guests := some 2, amount := some 1200,
    start_date := some 106, end_date := some 110 }

/-- A new special overlapping the existing one: range `[105, 110]`. -/
def wSpDataOverlap : RateData :=
  { rate_type := some "special", guests := some 2, amount := some 1200,
    start_date := some 105, end_date := some 110 }

/-- The same overlapping range `[105, 110]`, but the body also carries
`"id": 1` — the id of the existing overlapping special row, which
`Rate.id != data.get('id', 0)` then excludes from the overlap query. -/
def wSpDataSelfId : RateData :=
  { id := some 1, rate_type := some "special", guests := some 2, amount := some 1200,
    start_date := some 105, end_date := some 110 }

def wDelR1 : Rate :=
  { id := 1, rate_type := "base", guests := 2, amount := 900 }

def wDelR2 : Rate :=
  { id := 2, rate_type := "base", guests := 2, amount := 1000 }

def wDelRates : List Rate := [wDelR1, wDelR2]

def cSvcClaims : DecodedClaims :=
  { iss := "http://localhost:8080/realms/peppertree", typ := some "Bearer",
    preferred_username := some "service-account-peppertree-backend" }

def cUserClaims : DecodedClaims :=
  { iss := "http://localhost:8080/realms/peppertree", typ := some "Bearer",
    preferred_username := some "alice" }

def wBooking : Booking :=
  { id := 1, status := "pending", checkin := 100, checkout := 103 }

/-! ## Theorems: date iteration -/

theorem mem_datesFrom {lo hi d : Int} : d ∈ datesFrom lo hi ↔ lo ≤ d ∧ d < hi := by
  unfold datesFrom
  rw [List.mem_map]
  constructor
  · rintro ⟨i, hi', rfl⟩
    rw [List.mem_range] at hi'
    omega
  · rintro ⟨h1, h2⟩
    refine ⟨(d - lo).toNat, ?_, ?_⟩
    · rw [List.mem_range]; omega
    · omega

theorem length_datesFrom (lo hi : Int) : (datesFrom lo hi).length = (hi - lo).toNat := by
  unfold datesFrom
  rw [List.length_map, List.length_range]

/-! ## Theorems: availability -/

theorem availBlocks_eq_true {s e : Int} {b : Booking} :
    availBlocks s e b = true ↔
      b.status = "confirmed" ∧ b.checkin ≤ e ∧ s ≤ b.checkout := by
  simp [availBlocks, Bool.and_eq_true, decide_eq_true_eq, and_assoc]

theorem mem_unavailableDates {bookings : List Booking} {y m d : Int} :
    d ∈ unavailableDates bookings y m ↔
      ∃ b, b ∈ bookings ∧ b.status = "confirmed" ∧
        b.checkin ≤ monthEnd y m ∧ monthStart y m ≤ b.checkout ∧
        max b.checkin (monthStart y m) ≤ d ∧ d < min b.checkout (monthEnd y m + 1) := by
  unfold unavailableDates bookingDates
  rw [List.mem_dedup, List.mem_flatten]
  constructor
  · rintro ⟨l, hl, hd⟩
    rw [List.mem_map] at hl
    obtain ⟨b, hb, rfl⟩ := hl
    rw [List.mem_filter] at hb
    rw [mem_datesFrom] at hd
    obtain ⟨h1, h2, h3⟩ := availBlocks_eq_true.mp hb.2
    exact ⟨b, hb.1, h1, h2, h3, hd.1, hd.2⟩
  · rintro ⟨b, hb, h1, h2, h3, h4, h5⟩
    refine ⟨datesFrom (max b.checkin (monthStart y m)) (min b.checkout (monthEnd y m + 1)),
      ?_, mem_datesFrom.mpr ⟨h4, h5⟩⟩
    rw [List.mem_map]
    exact ⟨b, List.mem_filter.mpr ⟨hb, availBlocks_eq_true.mpr ⟨h1, h2, h3⟩⟩, rfl⟩

/-- The booking unavailability helper restated without the redundant
overlap conjuncts: a nonempty clipped range forces overlap. -/
theorem mem_unavailableDates_clip {bookings : List Booking} {y m d : Int} :
    d ∈ unavailableDates bookings y m ↔
      ∃ b, b ∈ bookings ∧ b.status = "confirmed" ∧
        max b.checkin (monthStart y m) ≤ d ∧ d < min b.checkout (monthEnd y m + 1) := by
  rw [mem_unavailableDates]
  constructor
  · rintro ⟨b, hb, h1, _, _, h4, h5⟩
    exact ⟨b, hb, h1, h4, h5⟩
  · rintro ⟨b, hb, h1, h4, h5⟩
    exact ⟨b, hb, h1, by omega, by omega, h4, h5⟩

/-- The claim's "blocking set {confirmed, approved}" is wrong about
`approved`: a booking approved through the admin endpoint, squarely
overlapping the queried month, contributes no unavailable dates. -/
theorem approved_booking_not_blocking_cex :
    unavailableDates
        [{ id := 1, status := "approved",
           checkin := toOrdinal 2024 6 15, checkout := toOrdinal 2024 6 18 }] 2024 6 = [] ∧
      toOrdinal 2024 6 15 ∉
        unavailableDates
          [{ id := 1, status := "approved",
             checkin := toOrdinal 2024 6 15, checkout := toOrdinal 2024 6 18 }] 2024 6 ∧
      monthStart 2024 6 ≤ toOrdinal 2024 6 15 ∧
      toOrdinal 2024 6 15 < toOrdinal 2024 6 18 ∧
      toOrdinal 2024 6 18 ≤ monthEnd 2024 6 := by
  decide

/-- C1 (amended): the calendar-blocking set of `get_availability` is
exactly `{confirmed}`.  A date is unavailable precisely when some booking
with status `confirmed` whose stay interval meets the month span covers it
with an in-month night; bookings of any other status (`approved` and
`pending` included) contribute no dates. -/
theorem availability_blocking_is_confirmed_only (bookings : List Booking) (y m d : Int) :
    d ∈ unavailableDates bookings y m ↔
      ∃ b, b ∈ bookings ∧ b.status = "confirmed" ∧
        b.checkin ≤ monthEnd y m ∧ monthStart y m ≤ b.checkout ∧
        max b.checkin (monthStart y m) ≤ d ∧ d < min b.checkout (monthEnd y m + 1) :=
  mem_unavailableDates

/-- C2: for a validated query, `unavailable_dates` is exactly the union
over confirmed bookings of `[max(checkin, month_start),
min(checkout, month_end + 1))` (checkout exclusive); every returned date
lies inside `[month_start, month_end]`; December's month end is December
31, i.e. first day of next January minus one day computed in the next
year. -/
theorem unavailable_dates_exact (bookings : List Booking) (y m d : Int) :
    (d ∈ unavailableDates bookings y m ↔
      ∃ b, b ∈ bookings ∧ b.status = "confirmed" ∧
        max b.checkin (monthStart y m) ≤ d ∧ d < min b.checkout (monthEnd y m + 1)) ∧
    ((unavailableDates bookings y m).all
      (fun x => decide (monthStart y m ≤ x) && decide (x ≤ monthEnd y m)) = true) ∧
    monthEnd y 12 = toOrdinal (y + 1) 1 1 - 1 ∧
    monthEnd y 12 = toOrdinal y 12 31 := by
  refine ⟨mem_unavailableDates_clip, ?_, by simp [monthEnd], ?_⟩
  · rw [List.all_eq_true]
    intro x hx
    obtain ⟨b, _, _, h4, h5⟩ := mem_unavailableDates_clip.mp hx
    simp only [Bool.and_eq_true, decide_eq_true_eq]
    omega
  · simp [monthEnd, toOrdinal, daysBeforeYear, daysBeforeMonth, isLeap]
    omega

/-- The claim is wrong for `month=0`: `0` is an out-of-range month value,
yet Python falsiness (`if not year or not month`) reports the
missing-parameter error for it, not the month-range error. -/
theorem month_zero_reported_missing_cex :
    get_availability [] (some 2024) (some 0) = .errMissing ∧
      get_availability [] (some 2024) (some 0) ≠ .errMonthRange ∧
      ((0 : Int) < 1 ∨ 12 < (0 : Int)) := by
  decide

/-- C9 (amended): a present, nonzero month outside 1–12 (with a present,
nonzero year) yields the month-range validation error; a missing year or
month — or a zero value for either, which the truthiness test conflates
with missing — yields the distinct missing-parameter error. -/
theorem availability_param_validation (bookings : List Booking) (year month : Option Int) :
    (intParamTruthy year = true → intParamTruthy month = true →
      (month.getD 0 < 1 ∨ 12 < month.getD 0) →
      get_availability bookings year month = .errMonthRange) ∧
    ((intParamTruthy year = false ∨ intParamTruthy month = false) →
      get_availability bookings year month = .errMissing) := by
  constructor
  · intro hy hm hr
    unfold get_availability
    rw [hy, hm]
    simp only [Bool.not_true, Bool.or_self, Bool.false_eq_true, if_false]
    have : (month.getD 0 < 1 || 12 < month.getD 0) = true := by
      rcases hr with h | h <;> simp [h]
    rw [this]
    simp
  · intro h
    unfold get_availability
    rcases h with h | h <;> rw [h] <;> simp

/-- Witness for C9's theorem: month 13 with a present year produces the
month-range error. -/
theorem availability_param_validation_witness :
    get_availability [] (some 2024) (some 13) = .errMonthRange :=
  (availability_param_validation [] (some 2024) (some 13)).1 (by decide) (by decide)
    (by decide)

/-! ## Theorems: rate calculation -/

theorem calculate_rate_ok_inv {rates : List Rate} {ci co guests n g : Int} {br : Rat}
    {nightly : List NightRate} {total : Rat}
    (h : calculate_rate rates ci co guests = .ok n g br nightly total) :
    ∃ base, findBaseRate rates guests = some base ∧
      (1 ≤ guests ∧ guests ≤ 2) ∧ ci < co ∧
      n = co - ci ∧ g = guests ∧ br = base.amount ∧
      nightly = nightlyList rates guests ci co base ∧
      total = ((nightlyList rates guests ci co base).map (·.rate)).sum := by
  unfold calculate_rate at h
  split at h
  · exact absurd h (by simp)
  next hg =>
  split at h
  · exact absurd h (by simp)
  next hd =>
  split at h
  · exact absurd h (by simp)
  next base hb =>
  rw [CalcResult.ok.injEq] at h
  obtain ⟨h1, h2, h3, h4, h5⟩ := h
  have hg' : ¬(guests < 1 ∨ 2 < guests) := by simpa using hg
  have hd' : ¬(co ≤ ci) := by simpa using hd
  exact ⟨base, hb, by omega, by omega, h1.symm, h2.symm, h3.symm, h4.symm, h5.symm⟩

/-- C4: on every successful rate calculation the returned total is the sum
of the per-night rates, and the nightly list has one entry per night,
`nights = (checkout - checkin).days`. -/
theorem calc_rate_totals (rates : List Rate) (ci co guests n g : Int) (br : Rat)
    (nightly : List NightRate) (total : Rat)
    (h : calculate_rate rates ci co guests = .ok n g br nightly total) :
    (nightly.map (·.rate)).sum = total ∧ (nightly.length : Int) = n ∧ n = co - ci := by
  obtain ⟨base, _, _, hlt, hn, _, _, hnl, ht⟩ := calculate_rate_ok_inv h
  subst hnl
  refine ⟨ht.symm, ?_, hn⟩
  rw [nightlyList, List.length_map, length_datesFrom]
  omega

/-- Witness for C4: a three-night stay against a single base rate. -/
theorem calc_rate_totals_witness :
    ((wNights3.map (·.rate)).sum = 3000 ∧ ((wNights3.length : Int) = 3) ∧ ((3 : Int) = 3 - 0)) :=
  calc_rate_totals [cexBase] 0 3 2 3 2 1000 wNights3 3000 (by
    have h0 : datesFrom 0 3 = [0, 1, 2] := by decide
    have h1 : fetchSpecials [cexBase] 2 0 3 = [] := by decide
    have h2 : findBaseRate [cexBase] 2 = some cexBase := by decide
    have h3 : nightlyList [cexBase] 2 0 3 cexBase = wNights3 := by
      rw [nightlyList, h1, h0]
      decide
    have hamount : cexBase.amount = 1000 := rfl
    unfold calculate_rate
    rw [h2]
    norm_num [h3, hamount]
    norm_num [wNights3])

theorem mem_fetchSpecials {rates : List Rate} {guests ci co : Int} {s : Rate} :
    s ∈ fetchSpecials rates guests ci co ↔
      s ∈ rates ∧ isActiveSpecialFor guests s = true ∧
        startLE s co = true ∧ endGE s ci = true := by
  simp [fetchSpecials, List.mem_filter, isActiveSpecialFor, Bool.and_eq_true, and_assoc]

theorem fetch_window_of_containsDate {s : Rate} {d ci co : Int}
    (hc : containsDate s d = true) (h1 : ci ≤ d) (h2 : d < co) :
    startLE s co = true ∧ endGE s ci = true := by
  unfold containsDate at hc
  rw [Bool.and_eq_true] at hc
  unfold startLE endGE at *
  cases hs : s.start_date <;> cases he : s.end_date <;> simp_all
  omega

theorem nightFor_date (base : Rate) (guests : Int) (specials : List Rate) (d : Int) :
    (nightFor base guests specials d).date = d := by
  unfold nightFor
  split <;> rfl

/-- The claim prices a night covered by more than one active special at the
base rate ("every other night"); the code prices it at the first matching
special.  Concrete state: two distinct active specials for 2 guests both
covering day 100; a one-night stay on day 100 is billed 1500 with type
`special`, not the 1000 base. -/
theorem multi_special_night_cex :
    calculate_rate [cexBase, cexSpecA, cexSpecB] 100 101 2 =
      .ok 1 2 1000 [⟨100, 1500, "special", some "festival A"⟩] 1500 ∧
    containsDate cexSpecA 100 = true ∧ containsDate cexSpecB 100 = true ∧
    isActiveSpecialFor 2 cexSpecA = true ∧ isActiveSpecialFor 2 cexSpecB = true ∧
    cexSpecA ≠ cexSpecB ∧
    (1500 : Rat) ≠ 1000 ∧ ("special" : String) ≠ "base" := by
  refine ⟨?_, by decide, by decide, by decide, by decide, by decide, by decide, by decide⟩
  have h0 : datesFrom 100 101 = [100] := by decide
  have h1 : fetchSpecials [cexBase, cexSpecA, cexSpecB] 2 100 101 = [cexSpecA, cexSpecB] := by
    decide
  have h2 : findBaseRate [cexBase, cexSpecA, cexSpecB] 2 = some cexBase := by decide
  have h3 : nightlyList [cexBase, cexSpecA, cexSpecB] 2 100 101 cexBase =
      [⟨100, 1500, "special", some "festival A"⟩] := by
    rw [nightlyList, h1, h0]
    decide
  have hamount : cexBase.amount = 1000 := rfl
  unfold calculate_rate
  rw [h2]
  norm_num [h3, hamount]

/-- C3 (amended): each night of the stay that exactly one active special
rate (same guest count) covers is billed at that special's amount with type
`special` and its description; each night no active special covers is
billed at the base amount with type `base`; a night covered by more than
one active special is billed at the first matching special in query order,
not at the base rate. -/
theorem calc_night_pricing (rates : List Rate) (ci co guests n g : Int) (br : Rat)
    (nightly : List NightRate) (total : Rat)
    (h : calculate_rate rates ci co guests = .ok n g br nightly total)
    (d : Int) (hd1 : ci ≤ d) (hd2 : d < co) :
    (∀ s, s ∈ rates → isActiveSpecialFor guests s = true → containsDate s d = true →
      (∀ t, t ∈ rates → isActiveSpecialFor guests t = true → containsDate t d = true → t = s) →
      (NightRate.mk d s.amount "special" s.description ∈ nightly ∧
        ∀ e, e ∈ nightly → e.date = d →
          e = NightRate.mk d s.amount "special" s.description)) ∧
    ((∀ s, s ∈ rates → isActiveSpecialFor guests s = true → containsDate s d = false) →
      (NightRate.mk d br "base" (some (baseDescription guests)) ∈ nightly ∧
        ∀ e, e ∈ nightly → e.date = d →
          e = NightRate.mk d br "base" (some (baseDescription guests)))) := by
  obtain ⟨base, hbase, _, _, _, _, hbr, hnl, _⟩ := calculate_rate_ok_inv h
  subst hnl
  have hdmem : d ∈ datesFrom ci co := mem_datesFrom.mpr ⟨hd1, hd2⟩
  have hmem : nightFor base guests (fetchSpecials rates guests ci co) d ∈
      nightlyList rates guests ci co base := by
    rw [nightlyList]
    exact List.mem_map_of_mem _ hdmem
  have huniq : ∀ e, e ∈ nightlyList rates guests ci co base → e.date = d →
      e = nightFor base guests (fetchSpecials rates guests ci co) d := by
    intro e he hed
    rw [nightlyList, List.mem_map] at he
    obtain ⟨d', _, rfl⟩ := he
    rw [nightFor_date] at hed
    rw [hed]
  constructor
  · intro s hs hsact hscont hone
    have hwin := fetch_window_of_containsDate hscont hd1 hd2
    have hsf : s ∈ fetchSpecials rates guests ci co :=
      mem_fetchSpecials.mpr ⟨hs, hsact, hwin.1, hwin.2⟩
    have hfind : (fetchSpecials rates guests ci co).find? (fun t => containsDate t d)
        = some s := by
      cases hf : (fetchSpecials rates guests ci co).find? (fun t => containsDate t d) with
      | none =>
        rw [List.find?_eq_none] at hf
        exact absurd hscont (by simpa using hf s hsf)
      | some x =>
        have hx1 : containsDate x d = true := by simpa using List.find?_some hf
        obtain ⟨hxr, hxact, _, _⟩ := mem_fetchSpecials.mp (List.mem_of_find?_eq_some hf)
        rw [hone x hxr hxact hx1]
    have hval : nightFor base guests (fetchSpecials rates guests ci co) d =
        NightRate.mk d s.amount "special" s.description := by
      unfold nightFor
      rw [hfind]
    rw [hval] at hmem huniq
    exact ⟨hmem, huniq⟩
  · intro hnone
    have hfind : (fetchSpecials rates guests ci co).find? (fun t => containsDate t d)
        = none := by
      rw [List.find?_eq_none]
      intro x hx
      obtain ⟨hxr, hxact, _, _⟩ := mem_fetchSpecials.mp hx
      simpa using hnone x hxr hxact
    have hval : nightFor base guests (fetchSpecials rates guests ci co) d =
        NightRate.mk d base.amount "base" (some (baseDescription guests)) := by
      unfold nightFor
      rw [hfind]
    rw [hval] at hmem huniq
    rw [hbr]
    exact ⟨hmem, huniq⟩

/-- Witness for C3's theorem: a two-night stay where the first night is
covered by exactly one special and the second by none. -/
theorem calc_night_pricing_witness :
    NightRate.mk 105 1500 "special" (some "festival A") ∈ wNightly2 ∧
    ∀ e, e ∈ wNightly2 → e.date = 105 →
      e = NightRate.mk 105 1500 "special" (some "festival A") := by
  have hcalc : calculate_rate [cexBase, cexSpecA] 105 107 2 = .ok 2 2 1000 wNightly2 2500 := by
    have h0 : datesFrom 105 107 = [105, 106] := by decide
    have h1 : fetchSpecials [cexBase, cexSpecA] 2 105 107 = [cexSpecA] := by decide
    have h2 : findBaseRate [cexBase, cexSpecA] 2 = some cexBase := by decide
    have h3 : nightlyList [cexBase, cexSpecA] 2 105 107 cexBase = wNightly2 := by
      rw [nightlyList, h1, h0]
      decide
    have hamount : cexBase.amount = 1000 := rfl
    unfold calculate_rate
    rw [h2]
    norm_num [h3, hamount]
    norm_num [wNightly2]
  exact (calc_night_pricing [cexBase, cexSpecA] 105 107 2 2 2 1000 wNightly2 2500 hcalc 105
    (by decide) (by decide)).1 cexSpecA (by decide) (by decide) (by decide) (by decide)

/-! ## Theorems: rate administration -/

theorem deactivateFirst_of_find? {p : Rate → Bool} {l : List Rate} {r : Rate}
    (h : l.find? p = some r) :
    ∃ l₁ l₂, l = l₁ ++ r :: l₂ ∧ (∀ x, x ∈ l₁ → p x = false) ∧ p r = true ∧
      deactivateFirst p l = l₁ ++ { r with is_active := false } :: l₂ := by
  induction l with
  | nil => simp at h
  | cons a as ih =>
    cases hp : p a with
    | true =>
      rw [List.find?_cons, hp] at h
      obtain rfl : a = r := by simpa using h
      exact ⟨[], as, rfl, by simp, hp, by simp [deactivateFirst, hp]⟩
    | false =>
      rw [List.find?_cons, hp] at h
      obtain ⟨l₁, l₂, rfl, hl₁, hr, hda⟩ := ih h
      refine ⟨a :: l₁, l₂, rfl, ?_, hr, ?_⟩
      · intro x hx
        rcases List.mem_cons.mp hx with rfl | hx'
        · exact hp
        · exact hl₁ x hx'
      · simp [deactivateFirst, hp, hda]

theorem isActiveBaseFor_deactivated (G : Int) (r : Rate) :
    isActiveBaseFor G { r with is_active := false } = false := by
  simp [isActiveBaseFor]

/-- Path taken by `create_rate` for a well-formed base-rate body. -/
theorem create_rate_base_path (rates : List Rate) (data : RateData) (G : Int) (a : Rat)
    (hrt : data.rate_type = some "base") (hg : data.guests = some G)
    (ha : data.amount = some a) (hG : G = 1 ∨ G = 2) (hpos : 0 < a) :
    create_rate rates data =
      (.ok (newRateId rates),
        deactivateFirst (isActiveBaseFor G) rates ++
          [mkNewRate data "base" G a (newRateId rates)]) := by
  unfold create_rate
  rw [hrt, hg, ha]
  have h2 : ((G == 1) || (G == 2)) = true := by
    rcases hG with rfl | rfl <;> rfl
  have h3 : ¬ (a ≤ 0) := not_le.mpr hpos
  simp [h2, h3]

/-- Path taken by `create_rate` for a well-formed special-rate body. -/
theorem create_rate_special_path (rates : List Rate) (data : RateData) (G : Int) (a : Rat)
    (s e : Int)
    (hrt : data.rate_type = some "special") (hg : data.guests = some G)
    (ha : data.amount = some a) (hG : G = 1 ∨ G = 2) (hpos : 0 < a)
    (hs : data.start_date = some s) (he : data.end_date = some e) (hse : s ≤ e) :
    create_rate rates data =
      (if rates.any (overlapsNewSpecial G (data.id.getD 0) s e) then (.errOverlap, rates)
       else (.ok (newRateId rates),
         rates ++ [mkNewRate data "special" G a (newRateId rates)])) := by
  unfold create_rate
  rw [hrt, hg, ha, hs, he]
  have h2 : ((G == 1) || (G == 2)) = true := by
    rcases hG with rfl | rfl <;> rfl
  have h3 : ¬ (a ≤ 0) := not_le.mpr hpos
  have h4 : ¬ (e < s) := not_lt.mpr hse
  simp [h2, h3, h4]

/-- C5: creating a base rate for guest count G when exactly one active base
row for G exists deactivates exactly that row — the prior rows split as
`l₁ ++ r₀ :: l₂` with no active base in `l₁` or `l₂`, the new state is
`l₁ ++ (r₀ deactivated) :: l₂ ++ [new row]` so every other row is
untouched — and afterwards at most one active base row for G exists. -/
theorem create_base_deactivates_exactly_one (rates : List Rate) (data : RateData)
    (G : Int) (a : Rat)
    (hrt : data.rate_type = some "base") (hg : data.guests = some G)
    (ha : data.amount = some a) (hG : G = 1 ∨ G = 2) (hpos : 0 < a)
    (hone : rates.countP (isActiveBaseFor G) = 1) :
    ∃ l₁ r₀ l₂,
      rates = l₁ ++ r₀ :: l₂ ∧ isActiveBaseFor G r₀ = true ∧
        l₁.countP (isActiveBaseFor G) = 0 ∧ l₂.countP (isActiveBaseFor G) = 0 ∧
        (create_rate rates data).2 =
          l₁ ++ { r₀ with is_active := false } ::
            (l₂ ++ [mkNewRate data "base" G a (newRateId rates)]) ∧
        (create_rate rates data).2.countP (isActiveBaseFor G) ≤ 1 ∧
        (create_rate rates data).1 = .ok (newRateId rates) := by
  have hpath := create_rate_base_path rates data G a hrt hg ha hG hpos
  have hex : ∃ x ∈ rates, isActiveBaseFor G x := List.countP_pos_iff.mp (by omega)
  have hsome : (rates.find? (isActiveBaseFor G)).isSome := List.find?_isSome.mpr hex
  obtain ⟨r₀, hr₀⟩ := Option.isSome_iff_exists.mp hsome
  obtain ⟨l₁, l₂, hsplit, hl₁, hpr, hda⟩ := deactivateFirst_of_find? hr₀
  have hc₁ : l₁.countP (isActiveBaseFor G) = 0 :=
    List.countP_eq_zero.mpr (by intro x hx; simp [hl₁ x hx])
  have hc₂ : l₂.countP (isActiveBaseFor G) = 0 := by
    rw [hsplit, List.countP_append, List.countP_cons_of_pos _ _ hpr] at hone
    omega
  refine ⟨l₁, r₀, l₂, hsplit, hpr, hc₁, hc₂, ?_, ?_, ?_⟩
  · rw [hpath, hda]
    simp
  · rw [hpath]
    simp only [hda]
    rw [List.append_assoc, List.countP_append, List.cons_append, List.countP_cons_of_neg,
      List.countP_append]
    · have := List.countP_le_length (isActiveBaseFor G)
        (l := [mkNewRate data "base" G a (newRateId rates)])
      simp only [List.length_cons, List.length_nil] at this
      omega
    · simp [isActiveBaseFor_deactivated]
  · rw [hpath]

/-- Witness for C5: one active base rate for two guests is replaced. -/
theorem create_base_deactivates_exactly_one_witness :
    ∃ l₁ r₀ l₂,
      wBaseRates = l₁ ++ r₀ :: l₂ ∧ isActiveBaseFor 2 r₀ = true ∧
        l₁.countP (isActiveBaseFor 2) = 0 ∧ l₂.countP (isActiveBaseFor 2) = 0 ∧
        (create_rate wBaseRates wBaseData).2 =
          l₁ ++ { r₀ with is_active := false } ::
            (l₂ ++ [mkNewRate wBaseData "base" 2 1000 (newRateId wBaseRates)]) ∧
        (create_rate wBaseRates wBaseData).2.countP (isActiveBaseFor 2) ≤ 1 ∧
        (create_rate wBaseRates wBaseData).1 = .ok (newRateId wBaseRates) :=
  create_base_deactivates_exactly_one wBaseRates wBaseData 2 1000 rfl rfl rfl
    (Or.inr rfl) (by norm_num) (by decide)

theorem any_overlaps_iff {rates : List Rate} {G : Int} {exclId : Nat} {s e : Int} :
    rates.any (overlapsNewSpecial G exclId s e) = true ↔
      ∃ r, r ∈ rates ∧ r.rate_type = "special" ∧ r.guests = G ∧ r.is_active = true ∧
        r.id ≠ exclId ∧ startLE r e = true ∧ endGE r s = true := by
  rw [List.any_eq_true]
  simp [overlapsNewSpecial, Bool.and_eq_true, and_assoc]

/-- C6: with a well-formed special-rate body, the write is rejected with
the overlap error and an unchanged rates table exactly when an existing
active special of the same guest count (other than the row named by the
body's own id) satisfies `existing.start <= new.end AND existing.end >=
new.start`; with zero overlap the row is appended and the table otherwise
unchanged. -/
theorem special_overlap_guard (rates : List Rate) (data : RateData) (G : Int) (a : Rat)
    (s e : Int)
    (hrt : data.rate_type = some "special") (hg : data.guests = some G)
    (ha : data.amount = some a) (hG : G = 1 ∨ G = 2) (hpos : 0 < a)
    (hs : data.start_date = some s) (he : data.end_date = some e) (hse : s ≤ e) :
    ((∃ r, r ∈ rates ∧ r.rate_type = "special" ∧ r.guests = G ∧ r.is_active = true ∧
        r.id ≠ data.id.getD 0 ∧ startLE r e = true ∧ endGE r s = true) →
      create_rate rates data = (.errOverlap, rates)) ∧
    ((¬ ∃ r, r ∈ rates ∧ r.rate_type = "special" ∧ r.guests = G ∧ r.is_active = true ∧
        r.id ≠ data.id.getD 0 ∧ startLE r e = true ∧ endGE r s = true) →
      create_rate rates data =
        (.ok (newRateId rates), rates ++ [mkNewRate data "special" G a (newRateId rates)])) := by
  have hpath := create_rate_special_path rates data G a s e hrt hg ha hG hpos hs he hse
  constructor
  · intro hex
    rw [hpath, if_pos (any_overlaps_iff.mpr hex)]
  · intro hnex
    rw [hpath, if_neg (fun hc => hnex (any_overlaps_iff.mp hc))]

/-- Witness for C6: an overlapping special (range `[105,110]` against an
existing `[100,105]`) is rejected without state change, and the adjacent
special (range `[106,110]`) is accepted. -/
theorem special_overlap_guard_witness :
    (create_rate wSpRates wSpDataOverlap = (.errOverlap, wSpRates)) ∧
    (create_rate wSpRates wSpData =
      (.ok (newRateId wSpRates),
        wSpRates ++ [mkNewRate wSpData "special" 2 1200 (newRateId wSpRates)])) :=
  ⟨(special_overlap_guard wSpRates wSpDataOverlap 2 1200 105 110 rfl rfl rfl
      (Or.inr rfl) (by norm_num) rfl rfl (by decide)).1 (by decide),
   (special_overlap_guard wSpRates wSpData 2 1200 106 110 rfl rfl rfl
      (Or.inr rfl) (by norm_num) rfl rfl (by decide)).2 (by decide)⟩

/-- The claim's universal "is rejected" is false of the program: a create
body that carries the overlapping row's own id (here `"id": 1`) makes the
overlap query exclude that row via `Rate.id != data.get('id', 0)`, so the
write is accepted and an overlapping active special is inserted, even
though the state holds an active special of the same guest count with
`existing.start <= new.end AND existing.end >= new.start`. -/
theorem special_overlap_self_id_cex :
    (create_rate wSpRates wSpDataSelfId).1 = .ok (newRateId wSpRates) ∧
    (create_rate wSpRates wSpDataSelfId).2 =
      wSpRates ++ [mkNewRate wSpDataSelfId "special" 2 1200 (newRateId wSpRates)] ∧
    (create_rate wSpRates wSpDataSelfId).2 ≠ wSpRates ∧
    (∃ r, r ∈ wSpRates ∧ r.rate_type = "special" ∧ r.guests = 2 ∧ r.is_active = true ∧
      startLE r 110 = true ∧ endGE r 105 = true) ∧
    wSpDataSelfId.rate_type = some "special" ∧ wSpDataSelfId.guests = some 2 ∧
    wSpDataSelfId.start_date = some 105 ∧ wSpDataSelfId.end_date = some 110 := by
  have hany : wSpRates.any
      (overlapsNewSpecial 2 (wSpDataSelfId.id.getD 0) 105 110) = false := by decide
  have hpath := create_rate_special_path wSpRates wSpDataSelfId 2 1200 105 110
    rfl rfl rfl (Or.inr rfl) (by norm_num) rfl rfl (by norm_num)
  rw [hpath, if_neg (by simp [hany])]
  refine ⟨rfl, rfl, by decide, by decide, rfl, rfl, rfl, rfl⟩

theorem any_other_active_base_iff {rates : List Rate} {g : Int} {rid : Nat} :
    rates.any
        (fun o => o.rate_type == "base" && o.guests == g && o.is_active && !(o.id == rid))
      = true ↔
      ∃ o, o ∈ rates ∧ o.rate_type = "base" ∧ o.guests = g ∧ o.is_active = true ∧
        o.id ≠ rid := by
  rw [List.any_eq_true]
  simp [Bool.and_eq_true, and_assoc]

/-- C7: deleting a base rate that is the only active base row for its
guest count is rejected with no state change (so the row keeps whatever
activation it had); deleting it while another active base row for the same
guest count exists succeeds, flips exactly the addressed row to inactive
and leaves every other row untouched. -/
theorem delete_base_rate_guard (rates : List Rate) (rid : Nat) (r : Rate)
    (hfind : rates.find? (fun x => x.id == rid) = some r)
    (hbase : r.rate_type = "base") :
    ((¬ ∃ o, o ∈ rates ∧ o.rate_type = "base" ∧ o.guests = r.guests ∧ o.is_active = true ∧
        o.id ≠ rid) →
      delete_rate rates rid = (.errLastBase, rates)) ∧
    ((∃ o, o ∈ rates ∧ o.rate_type = "base" ∧ o.guests = r.guests ∧ o.is_active = true ∧
        o.id ≠ rid) →
      ((delete_rate rates rid).1 = .ok ∧
        ∃ l₁ l₂, rates = l₁ ++ r :: l₂ ∧ (∀ x, x ∈ l₁ → (x.id == rid) = false) ∧
          (delete_rate rates rid).2 = l₁ ++ { r with is_active := false } :: l₂)) := by
  have hred : delete_rate rates rid =
      (if r.rate_type == "base" &&
          !(rates.any (fun o =>
            o.rate_type == "base" && o.guests == r.guests && o.is_active && !(o.id == rid)))
        then (.errLastBase, rates)
        else (.ok, deactivateFirst (fun o => o.id == rid) rates)) := by
    unfold delete_rate
    rw [hfind]
  constructor
  · intro hnex
    have hq : rates.any (fun o =>
        o.rate_type == "base" && o.guests == r.guests && o.is_active && !(o.id == rid))
        = false := by
      cases hq : rates.any (fun o =>
          o.rate_type == "base" && o.guests == r.guests && o.is_active && !(o.id == rid)) with
      | true => exact absurd (any_other_active_base_iff.mp hq) hnex
      | false => rfl
    rw [hred, if_pos (by simp [hbase, hq])]
  · intro hex
    have hq := any_other_active_base_iff.mpr hex
    rw [hred, if_neg (by simp [hq])]
    obtain ⟨l₁, l₂, hsplit, hl₁, _, hda⟩ := deactivateFirst_of_find? hfind
    exact ⟨rfl, l₁, l₂, hsplit, hl₁, hda⟩

/-- Witness for C7: with two active base rates for two guests, deleting
the first succeeds and flips only that row to inactive. -/
theorem delete_base_rate_guard_witness :
    (delete_rate wDelRates 1).1 = .ok ∧
    ∃ l₁ l₂, wDelRates = l₁ ++ wDelR1 :: l₂ ∧ (∀ x, x ∈ l₁ → (x.id == 1) = false) ∧
      (delete_rate wDelRates 1).2 = l₁ ++ { wDelR1 with is_active := false } :: l₂ :=
  (delete_base_rate_guard wDelRates 1 wDelR1 (by decide) rfl).2 (by decide)

/-! ## Theorems: token verification -/

/-- C8: whatever the key id, key cache and cryptographic decode outcome
(valid or invalid signature alike), the user-token path rejects any token
whose decoded `preferred_username` carries the `service-account-` prefix,
and the client-credentials path rejects any token whose decoded
`preferred_username` does not carry it. -/
theorem token_paths_reject_wrong_class (kid : Option String) (keys : Option (List String))
    (c : DecodedClaims) (realm : String) :
    (isServiceAccountName (usernameOf c) = true →
      verify_user_token kid keys (.ok c) realm = none ∧
      verify_user_token kid keys .failed realm = none) ∧
    (isServiceAccountName (usernameOf c) = false →
      verify_client_credentials_token kid keys (.ok c) = none ∧
      verify_client_credentials_token kid keys .failed = none) := by
  refine ⟨fun h => ⟨?_, ?_⟩, fun h => ⟨?_, ?_⟩⟩
  · cases kid with
    | none => rfl
    | some k =>
      cases keys with
      | none => rfl
      | some ks =>
        unfold verify_user_token
        cases hk : ks.contains k
        · have hk' : ¬ (k ∈ ks) := by simpa using hk
          simp [hk']
        · have hk' : k ∈ ks := by simpa using hk
          simp [hk', h]
  · cases kid with
    | none => rfl
    | some k =>
      cases keys with
      | none => rfl
      | some ks =>
        unfold verify_user_token
        cases hk : ks.contains k
        · have hk' : ¬ (k ∈ ks) := by simpa using hk
          simp [hk']
        · have hk' : k ∈ ks := by simpa using hk
          simp [hk']
  · cases kid with
    | none => rfl
    | some k =>
      cases keys with
      | none => rfl
      | some ks =>
        unfold verify_client_credentials_token
        cases hk : ks.contains k
        · have hk' : ¬ (k ∈ ks) := by simpa using hk
          simp [hk']
        · have hk' : k ∈ ks := by simpa using hk
          simp [hk', h]
  · cases kid with
    | none => rfl
    | some k =>
      cases keys with
      | none => rfl
      | some ks =>
        unfold verify_client_credentials_token
        cases hk : ks.contains k
        · have hk' : ¬ (k ∈ ks) := by simpa using hk
          simp [hk']
        · have hk' : k ∈ ks := by simpa using hk
          simp [hk']

/-- Witness for C8: a service-account token with a valid signature is
rejected by the user path, and a user token with a valid signature is
rejected by the client-credentials path. -/
theorem token_paths_reject_wrong_class_witness :
    (verify_user_token (some "kid1") (some ["kid1"]) (.ok cSvcClaims) "peppertree" = none ∧
      verify_user_token (some "kid1") (some ["kid1"]) .failed "peppertree" = none) ∧
    (verify_client_credentials_token (some "kid1") (some ["kid1"]) (.ok cUserClaims) = none ∧
      verify_client_credentials_token (some "kid1") (some ["kid1"]) .failed = none) :=
  ⟨(token_paths_reject_wrong_class (some "kid1") (some ["kid1"]) cSvcClaims "peppertree").1
      (by decide),
   (token_paths_reject_wrong_class (some "kid1") (some ["kid1"]) cUserClaims "peppertree").2
      (by decide)⟩

/-! ## Theorems: booking status updates -/

/-- C10: the public endpoint accepts exactly `{pending, confirmed,
rejected}` and the admin endpoint exactly `{pending, approved, rejected,
cancelled, completed}`, each rejecting any other value with a validation
error and no state change; `confirmed` — the only status the availability
filter counts as blocking — is not settable through the admin endpoint,
and `approved` is not settable through the public endpoint. -/
theorem status_update_sets (bookings : List Booking) (bid : Nat) (b : Booking) (st : String)
    (hfind : bookings.find? (fun x => x.id == bid) = some b) :
    ((update_booking_status_public bookings bid (some st)).1 = .ok ↔
      st ∈ publicValidStatuses) ∧
    (st ∉ publicValidStatuses →
      update_booking_status_public bookings bid (some st) = (.errInvalidStatus, bookings)) ∧
    ((update_booking_status_admin bookings bid (some st)).1 = .ok ↔
      st ∈ adminValidStatuses) ∧
    (st ∉ adminValidStatuses →
      update_booking_status_admin bookings bid (some st) = (.errInvalidStatus, bookings)) ∧
    "confirmed" ∈ publicValidStatuses ∧ "confirmed" ∉ adminValidStatuses ∧
    "approved" ∈ adminValidStatuses ∧ "approved" ∉ publicValidStatuses ∧
    (∀ s e bk, availBlocks s e bk = true → bk.status = "confirmed") := by
  have hpub : update_booking_status_public bookings bid (some st) =
      (if st ∈ publicValidStatuses then
        ((.ok : StatusUpdateResult), setStatusFirst bid st false bookings)
       else (.errInvalidStatus, bookings)) := by
    unfold update_booking_status_public
    cases hc : publicValidStatuses.contains st
    · have hc' : ¬ (st ∈ publicValidStatuses) := by simpa using hc
      simp [hc']
    · have hc' : st ∈ publicValidStatuses := by simpa using hc
      simp [hc', hfind]
  have hadm : update_booking_status_admin bookings bid (some st) =
      (if st ∈ adminValidStatuses then
        ((.ok : StatusUpdateResult), setStatusFirst bid st true bookings)
       else (.errInvalidStatus, bookings)) := by
    unfold update_booking_status_admin
    rw [hfind]
    cases hc : adminValidStatuses.contains st
    · have hc' : ¬ (st ∈ adminValidStatuses) := by simpa using hc
      simp [hc']
    · have hc' : st ∈ adminValidStatuses := by simpa using hc
      simp [hc']
  refine ⟨?_, ?_, ?_, ?_, by decide, by decide, by decide, by decide, ?_⟩
  · rw [hpub]
    by_cases hc : st ∈ publicValidStatuses
    · simp [hc]
    · simp [hc]
  · intro hc
    rw [hpub, if_neg hc]
  · rw [hadm]
    by_cases hc : st ∈ adminValidStatuses
    · simp [hc]
    · simp [hc]
  · intro hc
    rw [hadm, if_neg hc]
  · intro s e bk hblk
    exact (availBlocks_eq_true.mp hblk).1

/-- Witness for C10: with one pending booking present, the public endpoint
accepts `confirmed` and the admin endpoint rejects it unchanged. -/
theorem status_update_sets_witness :
    ((update_booking_status_public [wBooking] 1 (some "confirmed")).1 = .ok ↔
      "confirmed" ∈ publicValidStatuses) ∧
    ("confirmed" ∉ adminValidStatuses →
      update_booking_status_admin [wBooking] 1 (some "confirmed") =
        (.errInvalidStatus, [wBooking])) :=
  ⟨(status_update_sets [wBooking] 1 wBooking "confirmed" (by decide)).1,
   (status_update_sets [wBooking] 1 wBooking "confirmed" (by decide)).2.2.2.1⟩
